import Mathlib

/-!
Verification of the sdeploy deployment daemon against its natural-language
specification.  The Go sources are shallowly embedded: pure string and
decision logic is translated into executable Lean definitions, and the
effectful parts (filesystem, git subprocesses, process supervision, the
per-project mutex map) are modelled by explicit environment/state records
whose fields stand for the outcomes of the corresponding system calls.
-/

namespace SDeploy

/-- ProjectConfig mirrors the `ProjectConfig` struct of the configuration
module (src/unnamed/part_003): per-project settings parsed from YAML. -/
structure ProjectConfig where
  name : String := ""
  webhookPath : String := ""
  webhookSecret : String := ""
  gitRepo : String := ""
  localPath : String := ""
  executePath : String := ""
  gitBranch : String := ""
  executeCommand : String := ""
  gitUpdate : Bool := false
  gitSSHKeyPath : String := ""
  timeoutSeconds : Int := 0
  emailRecipients : List String := []
  deriving Repr, DecidableEq

/-- Config mirrors the top-level `Config` struct (src/unnamed/part_003). The
email settings are irrelevant to the claims and are kept abstract. -/
structure Config where
  listenPort : Int := 0
  logPath : String := ""
  projects : List ProjectConfig := []
  deriving Repr, DecidableEq

/-- defaultGitBranch mirrors `Defaults.GitBranch` (src/unnamed/part_003 line 19). -/
def defaultGitBranch : String := "main"

/-- defaultPort mirrors `Defaults.Port` (src/unnamed/part_003 line 17). -/
def defaultPort : Int := 8080

/-- ConfigSearchPaths mirrors the `ConfigSearchPaths` slice
(src/unnamed/part_003 lines 23-26). -/
def ConfigSearchPaths : List String := ["/etc/sdeploy.conf", "./sdeploy.conf"]

/-- isValidBranchChar is the character class accepted by `validateGitBranch`
(src/unnamed/part_003 lines 144-151): ASCII letters, digits, dash,
underscore, slash, or dot. -/
def isValidBranchChar (c : Char) : Bool :=
  (('a' ≤ c ∧ c ≤ 'z') ∨ ('A' ≤ c ∧ c ≤ 'Z') ∨ ('0' ≤ c ∧ c ≤ '9') ∨
   c = '-' ∨ c = '_' ∨ c = '/' ∨ c = '.')

/-- validateGitBranch embeds `validateGitBranch` (src/unnamed/part_003 lines
136-154): empty branches are rejected, and every character must lie in the
restricted class.  The Go code reports the first offending character in its
error message; the message text is abbreviated here. -/
def validateGitBranch (branch : String) : Except String Unit :=
  if branch = "" then
    .error "git_branch cannot be empty"
  else if branch.data.all isValidBranchChar then
    .ok ()
  else
    .error "git_branch contains invalid character"

/-- validateProjects embeds the project loop of `validateConfig`
(src/unnamed/part_003 lines 92-130).  `seen` carries the webhook paths
already registered (the Go code uses a map), and `sshCheck` stands for the
filesystem-dependent `validateSSHKeyPath`.  Each accepted project is
returned with its `git_branch` defaulted, mirroring the in-place mutation
of the slice element. -/
def validateProjects (sshCheck : String → Except String Unit)
    (seen : List String) : List ProjectConfig → Except String (List ProjectConfig)
  | [] => .ok []
  | p :: rest =>
    if p.webhookPath = "" then
      .error "webhook_path is required"
    else if p.webhookSecret = "" then
      .error "webhook_secret is required"
    else if p.executeCommand = "" then
      .error "execute_command is required"
    else if p.webhookPath ∈ seen then
      .error "duplicate webhook_path"
    else
      let p2 := if p.gitBranch = "" then { p with gitBranch := defaultGitBranch } else p
      match validateGitBranch p2.gitBranch with
      | .error e => .error e
      | .ok () =>
        match (if p2.gitSSHKeyPath ≠ "" then sshCheck p2.gitSSHKeyPath else .ok ()) with
        | .error e => .error e
        | .ok () =>
          match validateProjects sshCheck (p2.webhookPath :: seen) rest with
          | .error e => .error e
          | .ok ps => .ok (p2 :: ps)

/-- validateConfig embeds `validateConfig` (src/unnamed/part_003 lines
87-133), applied to the whole configuration. -/
def validateConfig (sshCheck : String → Except String Unit) (cfg : Config) :
    Except String Config :=
  match validateProjects sshCheck [] cfg.projects with
  | .error e => .error e
  | .ok ps => .ok { cfg with projects := ps }

/-- loadConfigAfterParse embeds the post-parse half of `LoadConfig`
(src/unnamed/part_003 lines 62-84): the file read and YAML unmarshal are
external, so the embedding starts from the parsed `Config` value, applies
the default listen port, and validates. -/
def loadConfigAfterParse (sshCheck : String → Except String Unit)
    (cfg : Config) : Except String Config :=
  let cfg2 := if cfg.listenPort = 0 then { cfg with listenPort := defaultPort } else cfg
  validateConfig sshCheck cfg2

/-- FindConfigFile embeds `FindConfigFile` (src/unnamed/part_003 lines
185-202).  The filesystem is abstracted by `exs`, which reports whether
`os.Stat` succeeds on a path.  Note the explicit-path branch: a supplied
path that does not exist yields the empty string without consulting the
search paths. -/
def FindConfigFile (exs : String → Bool) (explicitPath : String) : String :=
  if explicitPath ≠ "" then
    if exs explicitPath then explicitPath else ""
  else
    match ConfigSearchPaths.find? (fun p => exs p) with
    | some p => p
    | none => ""

/-- findFirstExistingSpec formalises the claim wording for C8 ("returns the
first path in the sequence explicit, /etc/sdeploy.conf, ./sdeploy.conf that
exists, considering the explicit path only when one was supplied"); it is
written from the claim, not from the source, and is compared against
`FindConfigFile`. -/
def findFirstExistingSpec (exs : String → Bool) (explicitPath : String) : String :=
  let seq := (if explicitPath ≠ "" then [explicitPath] else []) ++ ConfigSearchPaths
  match seq.find? (fun p => exs p) with
  | some p => p
  | none => ""

/-- sanitizeProjectName embeds `sanitizeProjectName`
(src/cmd/sdeploy/logging.go lines 319-324).  The Go code applies
`strings.ReplaceAll` twice with one-character patterns, which is exactly a
character-wise replacement, so each pass is embedded as a map over the
characters. -/
def sanitizeProjectName (projectName : String) : String :=
  let pass1 := projectName.data.map (fun c => if c = '/' then '_' else c)
  let pass2 := pass1.map (fun c => if c = '\\' then '_' else c)
  ⟨pass2⟩

/-- Timestamp stands for the wall-clock instant captured at build-logger
creation; only the fields used by the Go format string
"2006-01-02-1504" appear. -/
structure Timestamp where
  year : Nat
  month : Nat
  day : Nat
  hour : Nat
  minute : Nat
  deriving Repr, DecidableEq

/-- pad2 renders a number to at least two digits with a leading zero, as
the Go time layout "01", "02", "15", "04" does. -/
def pad2 (n : Nat) : String :=
  if n < 10 then "0" ++ toString n else toString n

/-- pad4 renders a year to at least four digits with leading zeros, as the
Go time layout "2006" does. -/
def pad4 (n : Nat) : String :=
  if n < 10 then "000" ++ toString n
  else if n < 100 then "00" ++ toString n
  else if n < 1000 then "0" ++ toString n
  else toString n

/-- formatTimestamp embeds `bl.startTime.Format("2006-01-02-1504")`
(src/cmd/sdeploy/logging.go lines 141 and 184). -/
def formatTimestamp (t : Timestamp) : String :=
  pad4 t.year ++ "-" ++ pad2 t.month ++ "-" ++ pad2 t.day ++ "-" ++
    pad2 t.hour ++ pad2 t.minute

/-- buildLogPendingName embeds the pending filename computed by
`NewBuildLogger` (src/cmd/sdeploy/logging.go lines 140-143). -/
def buildLogPendingName (projectName : String) (t : Timestamp) : String :=
  sanitizeProjectName projectName ++ "-" ++ formatTimestamp t ++ "-pending.log"

/-- buildLogFinalName embeds the terminal filename computed by
`BuildLogger.Close` (src/cmd/sdeploy/logging.go lines 176-186). -/
def buildLogFinalName (projectName : String) (t : Timestamp) (success : Bool) : String :=
  let status := if success then "success" else "fail"
  sanitizeProjectName projectName ++ "-" ++ formatTimestamp t ++ "-" ++ status ++ ".log"

/-- StatR is the outcome of `os.Stat` on a path, as discriminated by
`ensureDirectoryExists` (src/unnamed/part_009 lines 50-65): an existing
directory, an existing non-directory, a missing path, or any other stat
error. -/
inductive StatR where
  | dir
  | file
  | missing
  | statError
  deriving Repr, DecidableEq

/-- FS abstracts the filesystem state seen by the preflight checks:
`stat` reports what `os.Stat` returns for a path, and `mkdirOk` reports
whether `os.MkdirAll` succeeds on a path. -/
structure FS where
  stat : String → StatR
  mkdirOk : String → Bool

/-- getEffectiveExecutePath embeds `getEffectiveExecutePath`
(src/unnamed/part_009 lines 11-16). -/
def getEffectiveExecutePath (localPath executePath : String) : String :=
  if executePath ≠ "" then executePath else localPath

/-- ensureDirectoryExists embeds `ensureDirectoryExists`
(src/unnamed/part_009 lines 50-77).  On creation the new filesystem marks
the path as a directory (parent creation by `MkdirAll` is abstracted away)
and the returned trace records the path together with the permission mode
0755 passed to `os.MkdirAll`. -/
def ensureDirectoryExists (fs : FS) (dirPath : String) :
    Except String (FS × List (String × Nat)) :=
  match fs.stat dirPath with
  | .dir => .ok (fs, [])
  | .file => .error ("path exists but is not a directory: " ++ dirPath)
  | .statError => .error "failed to stat directory"
  | .missing =>
    if fs.mkdirOk dirPath then
      .ok ({ fs with stat := fun q => if q = dirPath then .dir else fs.stat q },
           [(dirPath, 0o755)])
    else
      .error "failed to create directory"

/-- preflightStep2 is the second half of `runPreflightChecks`
(src/unnamed/part_009 lines 35-40): the effective `execute_path` is
ensured when non-empty and different from `local_path`. -/
def preflightStep2 (fs1 : FS) (tr1 : List (String × Nat)) (p : ProjectConfig) :
    Except String (FS × List (String × Nat)) :=
  if getEffectiveExecutePath p.localPath p.executePath ≠ "" ∧
     getEffectiveExecutePath p.localPath p.executePath ≠ p.localPath then
    match ensureDirectoryExists fs1 (getEffectiveExecutePath p.localPath p.executePath) with
    | .error e => .error ("failed to ensure execute_path exists: " ++ e)
    | .ok (fs2, tr2) => .ok (fs2, tr1 ++ tr2)
  else
    .ok (fs1, tr1)

/-- runPreflightChecks embeds `runPreflightChecks` (src/unnamed/part_009
lines 20-47): `local_path` is ensured when non-empty, then the effective
`execute_path` is ensured when non-empty and different from `local_path`.
The returned trace concatenates the directory creations performed. -/
def runPreflightChecks (fs : FS) (p : ProjectConfig) :
    Except String (FS × List (String × Nat)) :=
  match (if p.localPath ≠ "" then ensureDirectoryExists fs p.localPath
         else .ok (fs, [])) with
  | .error e => .error ("failed to ensure local_path exists: " ++ e)
  | .ok (fs1, tr1) => preflightStep2 fs1 tr1 p

/-- ExecEnv abstracts the nondeterminism of one `executeCommand` run
(src/unnamed/part_005 lines 547-617): whether `cmd.Start` fails, the bytes
the child writes to the two capture buffers, the `cmd.Wait` result when the
child exits, whether the caller's context is cancelled before the child
exits, and whether the child would run longer than the configured timeout. -/
structure ExecEnv where
  startErr : Option String
  stdout : String
  stderr : String
  waitErr : Option String
  parentCancelledFirst : Bool
  exceedsTimeout : Bool

/-- ExecResult records the observable outcome of `executeCommand`: the
returned output string and error, whether `killProcessGroup` was invoked,
whether the child's exit was awaited after the kill, and whether a timeout
context was created at entry. -/
structure ExecResult where
  output : String
  error : Option String
  killedGroup : Bool
  awaitedExit : Bool
  timeoutCtxCreated : Bool
  deriving Repr, DecidableEq

/-- executeCommand embeds `Deployer.executeCommand` (src/unnamed/part_005
lines 546-617).  A timeout context is created only when `timeout_seconds`
is positive; the select loop takes the cancellation branch when the
caller's context is cancelled first or when the positive timeout expires,
and in that branch the process group is killed, the exit is awaited, and
the error message interpolates the configured `timeout_seconds`. -/
def executeCommand (env : ExecEnv) (p : ProjectConfig) (_triggerSource : String) : ExecResult :=
  let timeoutCtxCreated := p.timeoutSeconds > 0
  match env.startErr with
  | some e =>
    { output := "", error := some e, killedGroup := false,
      awaitedExit := false, timeoutCtxCreated := timeoutCtxCreated }
  | none =>
    let ctxFires := env.parentCancelledFirst ∨ (p.timeoutSeconds > 0 ∧ env.exceedsTimeout)
    if ctxFires then
      { output := env.stdout ++ env.stderr,
        error := some ("command timed out after " ++ toString p.timeoutSeconds ++ " seconds"),
        killedGroup := true, awaitedExit := true,
        timeoutCtxCreated := timeoutCtxCreated }
    else
      let output :=
        if env.stderr.length > 0 then
          (if env.stdout ≠ "" then env.stdout ++ "\n" ++ env.stderr else env.stderr)
        else env.stdout
      { output := output, error := env.waitErr, killedGroup := false,
        awaitedExit := true, timeoutCtxCreated := timeoutCtxCreated }

/-- GitEnv abstracts the outcomes of the git subprocesses invoked by
`handleGitOperations` (src/unnamed/part_005 lines 231-331): SSH key
validation, the `.git` directory test, clone and checkout and pull
successes, and the two HEAD reads (`none` standing for a failed
`git rev-parse HEAD`). -/
structure GitEnv where
  sshKeyValid : Bool
  isGitRepo : Bool
  cloneOk : Bool
  branchCheckoutOk : Bool
  beforeSHA : Option String
  pullOk : Bool
  afterSHA : Option String

/-- handleGitOperations embeds `Deployer.handleGitOperations`
(src/unnamed/part_005 lines 231-331).  It returns `true` when changes are
present and `false` when the pull found no change: a just-cloned repository
returns `true`; with `git_update` false it returns `true`; with
`git_update` true the HEAD SHA is read before the pull (a failed read
degrades to the empty string), the pull runs, the HEAD SHA is read again (a
failed read conservatively returns `true`), and the result is the
disequality of the two SHAs. -/
def handleGitOperations (env : GitEnv) (p : ProjectConfig) : Except String Bool :=
  if p.gitSSHKeyPath ≠ "" ∧ ¬ env.sshKeyValid then
    .error "SSH key validation failed"
  else if ¬ env.isGitRepo then
    if ¬ env.cloneOk then
      .error "git clone failed"
    else if ¬ env.branchCheckoutOk then
      .error "failed to checkout configured branch after clone"
    else
      .ok true
  else
    if ¬ env.branchCheckoutOk then
      .error "failed to checkout configured branch"
    else if p.gitUpdate then
      let beforeSHA := env.beforeSHA.getD ""
      if ¬ env.pullOk then
        .error "git pull failed"
      else
        match env.afterSHA with
        | none => .ok true
        | some afterSHA => .ok (beforeSHA ≠ afterSHA)
    else
      .ok true

/-- Step names one of the pipeline phases a deployment can run, used to
record which phases `Deploy` actually entered. -/
inductive Step where
  | preflight
  | gitOps
  | execute
  deriving Repr, DecidableEq

/-- DeployResult mirrors the `DeployResult` struct (src/unnamed/part_005
lines 17-24) restricted to its logic-bearing fields; the two wall-clock
timestamps are omitted. -/
structure DeployResult where
  success : Bool := false
  skipped : Bool := false
  output : String := ""
  error : String := ""
  deriving Repr, DecidableEq

/-- DeployOutcome pairs the returned `DeployResult` with the observable
side effects of one `Deploy` call: whether the skip warning was written to
the service log, whether a build logger was created, the boolean passed to
`BuildLogger.Close` (none when no close happened), the pipeline steps that
ran, and whether the notifier was invoked. -/
structure DeployOutcome where
  result : DeployResult
  warnedInProgress : Bool
  buildLogCreated : Bool
  closedWith : Option Bool
  steps : List Step
  notified : Bool
  deriving Repr, DecidableEq

/-- LockState is the set of webhook paths whose per-project mutex is
currently held.  The lazily grown mutex map of `Deployer.getProjectLock`
(src/unnamed/part_005 lines 60-71) is abstracted to this set, since a
mutex object exists independently of being held. -/
abbrev LockState := List String

/-- Deploy embeds `Deployer.Deploy` (src/unnamed/part_005 lines 79-191) as
a state-passing function over the held-lock set.  The non-blocking
`TryLock` fails exactly when the project's `webhook_path` is in the set; on
failure the call records `skipped`, warns, and runs no pipeline step.  On
success the lock is held for the duration of the call and removed again by
the deferred unlock, the build logger is created and finally closed with
`result.Success && !result.Skipped`, and the pipeline runs preflight, git
operations (when `git_repo` is set, with an unconditional skip when the
pull found no changes), and command execution in order. -/
def Deploy (st : LockState) (fs : FS) (genv : GitEnv) (eenv : ExecEnv)
    (p : ProjectConfig) (triggerSource : String) : LockState × DeployOutcome :=
  if p.webhookPath ∈ st then
    (st,
     { result := { skipped := true }, warnedInProgress := true,
       buildLogCreated := false, closedWith := none, steps := [], notified := false })
  else
    -- lock acquired; the deferred block closes the build logger with
    -- result.Success && !result.Skipped and releases the lock.
    let finish := fun (r : DeployResult) (steps : List Step) (notified : Bool) =>
      (st,
       { result := r, warnedInProgress := false, buildLogCreated := true,
         closedWith := some (r.success && !r.skipped), steps := steps,
         notified := notified })
    match runPreflightChecks fs p with
    | .error e => finish { error := e } [.preflight] true
    | .ok _ =>
      let afterGit := fun (steps : List Step) =>
        let er := executeCommand eenv p triggerSource
        match er.error with
        | some e =>
          finish { success := false, output := er.output, error := e }
            (steps ++ [.execute]) true
        | none =>
          finish { success := true, output := er.output }
            (steps ++ [.execute]) true
      if p.gitRepo ≠ "" then
        match handleGitOperations genv p with
        | .error e => finish { error := e } [.preflight, .gitOps] true
        | .ok false =>
          finish { skipped := true } [.preflight, .gitOps] false
        | .ok true => afterGit [.preflight, .gitOps]
      else
        afterGit [.preflight]

/-- shouldSkipBuildOnNoChanges is absent from src/ (only its tests in
src/unnamed/part_007 call it).  Modelled from the spec: "The skip decision
is a function of trigger_origin alone: WEBHOOK (Github), WEBHOOK (unknown),
bare WEBHOOK → skip; any other WEBHOOK (label), INTERNAL, or unrecognized
origin → proceed". -/
def shouldSkipBuildOnNoChanges (triggerSource : String) : Bool :=
  triggerSource = "WEBHOOK (Github)" ∨ triggerSource = "WEBHOOK (unknown)" ∨
    triggerSource = "WEBHOOK"

/-- fsDirAll is a sample filesystem in which every path is an existing
directory; used to instantiate hypothesis-bearing theorems. -/
def fsDirAll : FS := { stat := fun _ => .dir, mkdirOk := fun _ => true }

/-- projA is a sample project configuration used to instantiate
hypothesis-bearing theorems. -/
def projA : ProjectConfig :=
  { name := "App", webhookPath := "/hooks/app", webhookSecret := "s",
    gitRepo := "https://example.com/app.git", localPath := "/srv/app",
    gitBranch := "main", executeCommand := "make deploy", gitUpdate := true,
    timeoutSeconds := 0 }

/-- genvNoChange is a sample git environment in which the repository is
already cloned and the pull finds the same HEAD SHA as before. -/
def genvNoChange : GitEnv :=
  { sshKeyValid := true, isGitRepo := true, cloneOk := true,
    branchCheckoutOk := true, beforeSHA := some "abc123", pullOk := true,
    afterSHA := some "abc123" }

/-- eenvPlain is a sample execution environment in which the child starts,
writes "ok" to standard output, and exits cleanly before any cancellation. -/
def eenvPlain : ExecEnv :=
  { startErr := none, stdout := "ok", stderr := "", waitErr := none,
    parentCancelledFirst := false, exceedsTimeout := false }

/-- tsA is a sample timestamp. -/
def tsA : Timestamp := { year := 2024, month := 1, day := 2, hour := 3, minute := 4 }

/-- projT is `projA` with a five-second timeout. -/
def projT : ProjectConfig := { projA with timeoutSeconds := 5 }

/-- eenvTimeout is a sample execution environment in which the child runs
longer than the configured timeout. -/
def eenvTimeout : ExecEnv :=
  { startErr := none, stdout := "out", stderr := "err", waitErr := none,
    parentCancelledFirst := false, exceedsTimeout := true }

/-- eenvCancel is a sample execution environment in which the caller's
context is cancelled before the child exits. -/
def eenvCancel : ExecEnv :=
  { startErr := none, stdout := "out", stderr := "err", waitErr := none,
    parentCancelledFirst := true, exceedsTimeout := false }

/-- genvChange is `genvNoChange` with a different HEAD SHA after the pull. -/
def genvChange : GitEnv := { genvNoChange with afterSHA := some "def456" }

/-- C5: for every project name and boolean outcome, the build log is
created under the pending name made of the sanitized project name, the
date, and the "-pending.log" suffix; sanitization leaves no path separator
in the name; Close(true) renames to the same stem with "-success.log",
Close(false) with "-fail.log"; and no terminal name carries the
"-pending.log" suffix. -/
theorem c5_build_log_artifact_naming (pn : String) (t : Timestamp) :
    (∀ c ∈ (sanitizeProjectName pn).data, c ≠ '/' ∧ c ≠ '\\') ∧
    buildLogPendingName pn t =
      sanitizeProjectName pn ++ "-" ++ formatTimestamp t ++ "-pending.log" ∧
    buildLogFinalName pn t true =
      sanitizeProjectName pn ++ "-" ++ formatTimestamp t ++ "-success.log" ∧
    buildLogFinalName pn t false =
      sanitizeProjectName pn ++ "-" ++ formatTimestamp t ++ "-fail.log" ∧
    (∀ b : Bool, ¬ ("-pending.log".data <:+ (buildLogFinalName pn t b).data)) := by
  refine ⟨?_, rfl, ?_, ?_, ?_⟩
  · intro c hc
    simp only [sanitizeProjectName, List.map_map, List.mem_map, Function.comp] at hc
    obtain ⟨a, _, rfl⟩ := hc
    by_cases h1 : a = '/' <;> by_cases h2 : a = '\\' <;> simp [h1, h2]
  · simp only [buildLogFinalName, String.append_assoc]
    rfl
  · simp only [buildLogFinalName, String.append_assoc]
    rfl
  · intro b h
    cases b
    · have h2 : buildLogFinalName pn t false =
          (sanitizeProjectName pn ++ "-" ++ formatTimestamp t) ++ "-fail.log" := by
        simp only [buildLogFinalName, String.append_assoc]
        rfl
      rw [h2, String.data_append] at h
      obtain ⟨u, hu⟩ := h
      have hsplit : ("-pending.log".data : List Char) = "-pe".data ++ "nding.log".data := by
        decide
      rw [hsplit, ← List.append_assoc] at hu
      exact absurd (List.append_inj' hu (by decide)).2 (by decide)
    · have h2 : buildLogFinalName pn t true =
          (sanitizeProjectName pn ++ "-" ++ formatTimestamp t) ++ "-success.log" := by
        simp only [buildLogFinalName, String.append_assoc]
        rfl
      rw [h2, String.data_append] at h
      obtain ⟨u, hu⟩ := h
      exact absurd (List.append_inj' hu (by decide)).2 (by decide)

/-- C5 witness: the theorem instantiated at a project name containing a
slash and a concrete timestamp. -/
theorem c5_build_log_artifact_naming_witness :
    ¬ ("-pending.log".data <:+ (buildLogFinalName "domain.com/app" tsA true).data) :=
  (c5_build_log_artifact_naming "domain.com/app" tsA).2.2.2.2 true

/-- C8 counterexample: with an explicit path that does not exist while
/etc/sdeploy.conf exists, `FindConfigFile` returns the empty string, not
the first existing path of the claimed sequence. -/
theorem c8_counterexample_explicit_no_fallback :
    FindConfigFile (fun p => p == "/etc/sdeploy.conf") "/missing.conf" = "" ∧
    findFirstExistingSpec (fun p => p == "/etc/sdeploy.conf") "/missing.conf" =
      "/etc/sdeploy.conf" ∧
    ("/missing.conf" : String) ≠ "" := by
  refine ⟨rfl, rfl, by decide⟩

/-- C8 (amended): when no explicit path is supplied, `FindConfigFile`
returns the first existing path among /etc/sdeploy.conf then
./sdeploy.conf; when an explicit path is supplied, it is returned exactly
when it exists, and otherwise the empty string is returned without
consulting the search paths. -/
theorem c8_config_file_search_order (exs : String → Bool) (explicitPath : String) :
    (explicitPath = "" →
       FindConfigFile exs explicitPath = findFirstExistingSpec exs explicitPath) ∧
    (explicitPath ≠ "" → exs explicitPath = true →
       FindConfigFile exs explicitPath = explicitPath) ∧
    (explicitPath ≠ "" → exs explicitPath = false →
       FindConfigFile exs explicitPath = "") := by
  refine ⟨?_, ?_, ?_⟩
  · intro h
    subst h
    simp [FindConfigFile, findFirstExistingSpec]
  · intro h he
    simp [FindConfigFile, h, he]
  · intro h he
    simp [FindConfigFile, h, he]

/-- C8 witness: the amended theorem instantiated at concrete filesystem
states. -/
theorem c8_config_file_search_order_witness :
    FindConfigFile (fun _ => false) "" = findFirstExistingSpec (fun _ => false) "" ∧
    FindConfigFile (fun _ => true) "/x.conf" = "/x.conf" ∧
    FindConfigFile (fun _ => false) "/x.conf" = "" :=
  ⟨(c8_config_file_search_order (fun _ => false) "").1 rfl,
   (c8_config_file_search_order (fun _ => true) "/x.conf").2.1 (by decide) rfl,
   (c8_config_file_search_order (fun _ => false) "/x.conf").2.2 (by decide) rfl⟩

/-- C4: with `timeout_seconds = 0` no timeout context is created and,
absent an external cancellation, the process is never killed and its own
exit result is returned; with a positive `timeout_seconds`, on expiry the
process group is killed, the exit is awaited, the error message is
"command timed out after (timeout_seconds) seconds", and the output
captured up to the kill is returned. -/
theorem c4_execute_command_timeout (env : ExecEnv) (p : ProjectConfig) (ts : String) :
    (p.timeoutSeconds = 0 →
       (executeCommand env p ts).timeoutCtxCreated = false ∧
       (env.startErr = none → env.parentCancelledFirst = false →
          (executeCommand env p ts).killedGroup = false ∧
          (executeCommand env p ts).awaitedExit = true ∧
          (executeCommand env p ts).error = env.waitErr)) ∧
    (0 < p.timeoutSeconds → env.startErr = none → env.exceedsTimeout = true →
       executeCommand env p ts =
         { output := env.stdout ++ env.stderr,
           error := some ("command timed out after " ++ toString p.timeoutSeconds ++
                          " seconds"),
           killedGroup := true, awaitedExit := true, timeoutCtxCreated := true }) := by
  constructor
  · intro h0
    constructor
    · cases hs : env.startErr <;> cases hpc : env.parentCancelledFirst <;>
        simp [executeCommand, h0, hs, hpc]
    · intro hs hc
      simp [executeCommand, h0, hs, hc]
  · intro hpos hs hx
    simp [executeCommand, hs, hx, hpos, not_lt.mpr]

/-- C4 witness: the theorem instantiated with a zero-timeout clean run and
with a five-second timeout that expires. -/
theorem c4_execute_command_timeout_witness :
    ((executeCommand eenvPlain projA "INTERNAL").timeoutCtxCreated = false ∧
     (eenvPlain.startErr = none → eenvPlain.parentCancelledFirst = false →
        (executeCommand eenvPlain projA "INTERNAL").killedGroup = false ∧
        (executeCommand eenvPlain projA "INTERNAL").awaitedExit = true ∧
        (executeCommand eenvPlain projA "INTERNAL").error = eenvPlain.waitErr)) ∧
    executeCommand eenvTimeout projT "INTERNAL" =
      { output := eenvTimeout.stdout ++ eenvTimeout.stderr,
        error := some ("command timed out after " ++ toString projT.timeoutSeconds ++
                       " seconds"),
        killedGroup := true, awaitedExit := true, timeoutCtxCreated := true } :=
  ⟨(c4_execute_command_timeout eenvPlain projA "INTERNAL").1 rfl,
   (c4_execute_command_timeout eenvTimeout projT "INTERNAL").2 (by decide) rfl rfl⟩

/-- C10: with `timeout_seconds = 0` and the caller's context cancelled
before the child exits, the select loop still takes the cancellation
branch: the process group is killed and the returned error message is
"command timed out after 0 seconds", naming the configured value rather
than the actual cause. -/
theorem c10_cancellation_reported_as_timeout (env : ExecEnv) (p : ProjectConfig)
    (ts : String) (h0 : p.timeoutSeconds = 0) (hs : env.startErr = none)
    (hc : env.parentCancelledFirst = true) :
    executeCommand env p ts =
      { output := env.stdout ++ env.stderr,
        error := some "command timed out after 0 seconds",
        killedGroup := true, awaitedExit := true, timeoutCtxCreated := false } := by
  simp [executeCommand, h0, hs, hc]
  rfl

/-- C10 witness: the theorem instantiated at a zero-timeout project whose
deployment is cancelled mid-run. -/
theorem c10_cancellation_reported_as_timeout_witness :
    executeCommand eenvCancel projA "WEBHOOK (Github)" =
      { output := eenvCancel.stdout ++ eenvCancel.stderr,
        error := some "command timed out after 0 seconds",
        killedGroup := true, awaitedExit := true, timeoutCtxCreated := false } :=
  c10_cancellation_reported_as_timeout eenvCancel projA "WEBHOOK (Github)" rfl rfl rfl

/-- C3: for a project whose working tree already exists, when the SSH key
check, the branch checkout, the pull, and both HEAD reads succeed, the git
phase reports "no changes" exactly when `git_update` is true and the HEAD
SHA before the pull equals the HEAD SHA after it; a just-cloned repository
reports "changes present". -/
theorem c3_change_detection (env : GitEnv) (p : ProjectConfig) (b a : String)
    (hssh : p.gitSSHKeyPath = "" ∨ env.sshKeyValid = true)
    (hco : env.branchCheckoutOk = true)
    (hpull : env.pullOk = true)
    (hb : env.beforeSHA = some b) (ha : env.afterSHA = some a) :
    (env.isGitRepo = true →
       (handleGitOperations env p = .ok false ↔ (p.gitUpdate = true ∧ b = a))) ∧
    (env.isGitRepo = false → env.cloneOk = true →
       handleGitOperations env p = .ok true) := by
  have hs : ¬ (¬ p.gitSSHKeyPath = "" ∧ env.sshKeyValid = false) := by
    rcases hssh with h | h <;> simp [h]
  constructor
  · intro hrepo
    cases hu : p.gitUpdate
    · simp [handleGitOperations, hs, hrepo, hco, hpull, hb, ha, hu]
    · simp [handleGitOperations, hs, hrepo, hco, hpull, hb, ha, hu]
  · intro hrepo hclone
    simp [handleGitOperations, hs, hrepo, hclone, hco]

/-- C3 witness: the theorem instantiated with a pull that found the same
HEAD SHA before and after. -/
theorem c3_change_detection_witness :
    handleGitOperations genvNoChange projA = .ok false ↔
      (projA.gitUpdate = true ∧ "abc123" = "abc123") :=
  (c3_change_detection genvNoChange projA "abc123" "abc123" (.inl rfl) rfl rfl
      rfl rfl).1 rfl

/-- Deploy_fst: the held-lock set returned by `Deploy` always equals the
entry set — on the skip branch the lock was never taken, and on every
other branch the deferred unlock releases it. -/
theorem Deploy_fst (st : LockState) (fs : FS) (genv : GitEnv) (eenv : ExecEnv)
    (p : ProjectConfig) (trigger : String) :
    (Deploy st fs genv eenv p trigger).1 = st := by
  unfold Deploy
  by_cases hmem : p.webhookPath ∈ st
  · simp [hmem]
  · simp only [hmem, if_neg, not_false_iff, if_false]
    rcases hpre : runPreflightChecks fs p with e | pr
    · simp [hpre]
    · simp only [hpre]
      by_cases hr : p.gitRepo = ""
      · rcases he : (executeCommand eenv p trigger).error with _ | e2 <;>
          simp [hr, he]
      · rcases hgit : handleGitOperations genv p with e2 | b
        · simp [hr, hgit]
        · cases b
          · simp [hr, hgit]
          · rcases he : (executeCommand eenv p trigger).error with _ | e2 <;>
              simp [hr, hgit, he]

/-- Deploy_buildLogCreated: whenever the lock is free at entry, `Deploy`
creates a build logger. -/
theorem Deploy_buildLogCreated (st : LockState) (fs : FS) (genv : GitEnv)
    (eenv : ExecEnv) (p : ProjectConfig) (trigger : String)
    (hmem : p.webhookPath ∉ st) :
    (Deploy st fs genv eenv p trigger).2.buildLogCreated = true := by
  unfold Deploy
  simp only [hmem, if_neg, not_false_iff, if_false]
  rcases hpre : runPreflightChecks fs p with e | pr
  · simp [hpre]
  · simp only [hpre]
    by_cases hr : p.gitRepo = ""
    · rcases he : (executeCommand eenv p trigger).error with _ | e2 <;>
        simp [hr, he]
    · rcases hgit : handleGitOperations genv p with e2 | b
      · simp [hr, hgit]
      · cases b
        · simp [hr, hgit]
        · rcases he : (executeCommand eenv p trigger).error with _ | e2 <;>
            simp [hr, hgit, he]

/-- Deploy_noChange: the acquired-lock path in which the preflight passes,
a git repository is configured, and the git phase reports "no changes":
the deployment is recorded as skipped, no command executes, no
notification is sent, and the build logger is closed with `false`. -/
theorem Deploy_noChange (st : LockState) (fs : FS) (genv : GitEnv) (eenv : ExecEnv)
    (p : ProjectConfig) (trigger : String) (fs2 : FS) (tr : List (String × Nat))
    (hmem : p.webhookPath ∉ st)
    (hpre : runPreflightChecks fs p = .ok (fs2, tr))
    (hrepo : ¬ p.gitRepo = "")
    (hgit : handleGitOperations genv p = .ok false) :
    Deploy st fs genv eenv p trigger =
      (st, { result := { skipped := true }, warnedInProgress := false,
             buildLogCreated := true, closedWith := some false,
             steps := [.preflight, .gitOps], notified := false }) := by
  unfold Deploy
  simp [hmem, hpre, hrepo, hgit]

/-- C1: when the project's mutex is already held, `Deploy` records
`skipped`, logs the WARN line, runs no pipeline step, and leaves the lock
state unchanged; the lock taken by a successful acquisition is released by
the time `Deploy` returns, so an immediately following `Deploy` for the
same project acquires it and proceeds past the lock check. -/
theorem c1_per_project_mutual_exclusion (st : LockState) (fs : FS) (genv : GitEnv)
    (eenv : ExecEnv) (p : ProjectConfig) (trigger : String) :
    (p.webhookPath ∈ st →
       Deploy st fs genv eenv p trigger =
         (st, { result := { skipped := true }, warnedInProgress := true,
                buildLogCreated := false, closedWith := none, steps := [],
                notified := false })) ∧
    (Deploy st fs genv eenv p trigger).1 = st ∧
    (p.webhookPath ∉ st →
       (Deploy ((Deploy st fs genv eenv p trigger).1) fs genv eenv p
           trigger).2.warnedInProgress = false ∧
       (Deploy ((Deploy st fs genv eenv p trigger).1) fs genv eenv p
           trigger).2.buildLogCreated = true) := by
  refine ⟨?_, Deploy_fst st fs genv eenv p trigger, ?_⟩
  · intro h
    simp [Deploy, h]
  · intro h
    rw [Deploy_fst st fs genv eenv p trigger]
    refine ⟨?_, Deploy_buildLogCreated st fs genv eenv p trigger h⟩
    unfold Deploy
    simp only [h, if_neg, not_false_iff, if_false]
    rcases hpre : runPreflightChecks fs p with e | pr
    · simp [hpre]
    · simp only [hpre]
      by_cases hr : p.gitRepo = ""
      · rcases he : (executeCommand eenv p trigger).error with _ | e2 <;>
          simp [hr, he]
      · rcases hgit : handleGitOperations genv p with e2 | b
        · simp [hr, hgit]
        · cases b
          · simp [hr, hgit]
          · rcases he : (executeCommand eenv p trigger).error with _ | e2 <;>
              simp [hr, hgit, he]

/-- C1 witness: the theorem instantiated with the lock held (skip branch)
and with the lock free (acquire, run, release, reacquire). -/
theorem c1_per_project_mutual_exclusion_witness :
    (Deploy ["/hooks/app"] fsDirAll genvChange eenvPlain projA "WEBHOOK (Github)" =
      (["/hooks/app"],
       { result := { skipped := true }, warnedInProgress := true,
         buildLogCreated := false, closedWith := none, steps := [],
         notified := false })) ∧
    (Deploy ((Deploy ([] : LockState) fsDirAll genvChange eenvPlain projA
         "WEBHOOK (Github)").1) fsDirAll genvChange eenvPlain projA
         "WEBHOOK (Github)").2.warnedInProgress = false :=
  ⟨(c1_per_project_mutual_exclusion ["/hooks/app"] fsDirAll genvChange eenvPlain
      projA "WEBHOOK (Github)").1 (by decide),
   ((c1_per_project_mutual_exclusion ([] : LockState) fsDirAll genvChange eenvPlain
      projA "WEBHOOK (Github)").2.2 (by decide)).1⟩

/-- C2: the repository's own tests (src/unnamed/part_007) and README
(src/unnamed/part_000) specify the spec-modelled policy
`shouldSkipBuildOnNoChanges`, under which only the GitHub, unknown, and
bare WEBHOOK origins skip on "no changes"; the `Deploy` in
src/unnamed/part_005, however, skips the build on "no changes" for every
trigger origin — including "INTERNAL" — and never reaches the execute
step, so the skip decision there ignores the trigger origin entirely. -/
theorem c2_no_change_skip_ignores_trigger :
    (shouldSkipBuildOnNoChanges "WEBHOOK (Github)" = true ∧
     shouldSkipBuildOnNoChanges "WEBHOOK (unknown)" = true ∧
     shouldSkipBuildOnNoChanges "WEBHOOK" = true ∧
     shouldSkipBuildOnNoChanges "INTERNAL" = false ∧
     shouldSkipBuildOnNoChanges "WEBHOOK (Jenkins)" = false ∧
     shouldSkipBuildOnNoChanges "WEBHOOK (GitLab)" = false) ∧
    (∀ (st : LockState) (fs : FS) (genv : GitEnv) (eenv : ExecEnv)
       (p : ProjectConfig) (trigger : String) (fs2 : FS) (tr : List (String × Nat)),
       p.webhookPath ∉ st →
       runPreflightChecks fs p = .ok (fs2, tr) →
       ¬ p.gitRepo = "" →
       handleGitOperations genv p = .ok false →
       (Deploy st fs genv eenv p trigger).2.result.skipped = true ∧
       Step.execute ∉ (Deploy st fs genv eenv p trigger).2.steps) := by
  constructor
  · exact ⟨by decide, by decide, by decide, by decide, by decide, by decide⟩
  · intro st fs genv eenv p trigger fs2 tr hmem hpre hrepo hgit
    rw [Deploy_noChange st fs genv eenv p trigger fs2 tr hmem hpre hrepo hgit]
    exact ⟨rfl, by simp⟩

/-- C2 witness: the code path evaluated at the INTERNAL trigger with an
unchanged remote, the input on which the code diverges from the
spec-modelled policy. -/
theorem c2_no_change_skip_ignores_trigger_witness :
    (Deploy ([] : LockState) fsDirAll genvNoChange eenvPlain projA
        "INTERNAL").2.result.skipped = true ∧
    Step.execute ∉ (Deploy ([] : LockState) fsDirAll genvNoChange eenvPlain projA
        "INTERNAL").2.steps :=
  c2_no_change_skip_ignores_trigger.2 [] fsDirAll genvNoChange eenvPlain projA
    "INTERNAL" fsDirAll [] (by decide) rfl (by decide) rfl

/-- C9: a deployment that acquires the lock and is then skipped by the
no-changes detection still creates a build logger, and that logger is
closed with `Success && !Skipped`, which is `false` for a skipped result,
so its artifact is renamed to the "-fail.log" terminal name — the same one
a failed deployment gets. -/
theorem c9_skipped_build_log_named_fail (st : LockState) (fs : FS) (genv : GitEnv)
    (eenv : ExecEnv) (p : ProjectConfig) (trigger : String) (fs2 : FS)
    (tr : List (String × Nat))
    (hmem : p.webhookPath ∉ st)
    (hpre : runPreflightChecks fs p = .ok (fs2, tr))
    (hrepo : ¬ p.gitRepo = "")
    (hgit : handleGitOperations genv p = .ok false) :
    (Deploy st fs genv eenv p trigger).2.buildLogCreated = true ∧
    (Deploy st fs genv eenv p trigger).2.result.skipped = true ∧
    (Deploy st fs genv eenv p trigger).2.result.success = false ∧
    (Deploy st fs genv eenv p trigger).2.closedWith = some false ∧
    (∀ pn t2, buildLogFinalName pn t2 false =
        sanitizeProjectName pn ++ "-" ++ formatTimestamp t2 ++ "-fail.log") := by
  rw [Deploy_noChange st fs genv eenv p trigger fs2 tr hmem hpre hrepo hgit]
  refine ⟨rfl, rfl, rfl, rfl, ?_⟩
  intro pn t2
  simp only [buildLogFinalName, String.append_assoc]
  rfl

/-- C9 witness: the theorem instantiated at the no-change skip path. -/
theorem c9_skipped_build_log_named_fail_witness :
    (Deploy ([] : LockState) fsDirAll genvNoChange eenvPlain projA
        "WEBHOOK (Github)").2.closedWith = some false :=
  (c9_skipped_build_log_named_fail [] fsDirAll genvNoChange eenvPlain projA
    "WEBHOOK (Github)" fsDirAll [] (by decide) rfl (by decide) rfl).2.2.2.1

/-- validateGitBranch_ok: a branch accepted by `validateGitBranch` is
non-empty and all of its characters lie in the restricted class. -/
theorem validateGitBranch_ok (branch : String)
    (h : validateGitBranch branch = .ok ()) :
    branch ≠ "" ∧ branch.data.all isValidBranchChar = true := by
  unfold validateGitBranch at h
  by_cases he : branch = ""
  · simp [he] at h
  · by_cases ha : branch.data.all isValidBranchChar = true
    · exact ⟨he, ha⟩
    · simp [he, ha] at h

/-- validateProjects_ok_forall₂: each project in the output of a
successful `validateProjects` run corresponds positionally to an input
project; its branch is the input branch after defaulting, is non-empty,
and passes the character-class check. -/
theorem validateProjects_ok_forall₂ (sshCheck : String → Except String Unit) :
    ∀ (l : List ProjectConfig) (seen : List String) (out : List ProjectConfig),
      validateProjects sshCheck seen l = .ok out →
      List.Forall₂ (fun pin pout =>
        pout.gitBranch =
          (if pin.gitBranch = "" then defaultGitBranch else pin.gitBranch) ∧
        pout.gitBranch ≠ "" ∧
        pout.gitBranch.data.all isValidBranchChar = true) l out := by
  intro l
  induction l with
  | nil =>
    intro seen out h
    simp only [validateProjects, Except.ok.injEq] at h
    subst h
    exact List.Forall₂.nil
  | cons p rest ih =>
    intro seen out h
    unfold validateProjects at h
    by_cases h1 : p.webhookPath = ""
    · simp [h1] at h
    · by_cases h2 : p.webhookSecret = ""
      · simp [h1, h2] at h
      · by_cases h3 : p.executeCommand = ""
        · simp [h1, h2, h3] at h
        · by_cases h4 : p.webhookPath ∈ seen
          · simp [h1, h2, h3, h4] at h
          · simp only [h1, h2, h3, h4, if_neg, not_false_iff, if_false] at h
            rcases hvb : validateGitBranch
                (if p.gitBranch = "" then { p with gitBranch := defaultGitBranch }
                 else p).gitBranch with e | u
            · rw [hvb] at h
              cases h
            · rcases u
              rw [hvb] at h
              rcases hsk : (if (if p.gitBranch = ""
                    then { p with gitBranch := defaultGitBranch }
                    else p).gitSSHKeyPath ≠ ""
                  then sshCheck (if p.gitBranch = ""
                    then { p with gitBranch := defaultGitBranch }
                    else p).gitSSHKeyPath
                  else .ok ()) with e | u2
              · rw [hsk] at h
                cases h
              · rcases u2
                rw [hsk] at h
                rcases hrec : validateProjects sshCheck
                    ((if p.gitBranch = ""
                      then { p with gitBranch := defaultGitBranch }
                      else p).webhookPath :: seen) rest with e | ps
                · rw [hrec] at h
                  cases h
                · rw [hrec] at h
                  simp only [Except.ok.injEq] at h
                  subst h
                  refine List.Forall₂.cons ?_ (ih _ _ hrec)
                  obtain ⟨hne, hall⟩ := validateGitBranch_ok _ hvb
                  refine ⟨?_, hne, hall⟩
                  by_cases hg : p.gitBranch = "" <;> simp [hg]

/-- forall₂_exists_right: from a pointwise relation, each right element is
related to some left element. -/
theorem forall₂_exists_right {α β : Type} {R : α → β → Prop} :
    ∀ {l : List α} {out : List β}, List.Forall₂ R l out →
      ∀ b ∈ out, ∃ a ∈ l, R a b := by
  intro l out h
  induction h with
  | nil => simp
  | cons hr _ ih =>
    intro b hb
    rcases List.mem_cons.mp hb with rfl | hb2
    · exact ⟨_, List.mem_cons_self _ _, hr⟩
    · obtain ⟨a, ha, hab⟩ := ih b hb2
      exact ⟨a, List.mem_cons_of_mem _ ha, hab⟩

/-- forall₂_exists_left: from a pointwise relation, each left element is
related to some right element. -/
theorem forall₂_exists_left {α β : Type} {R : α → β → Prop} :
    ∀ {l : List α} {out : List β}, List.Forall₂ R l out →
      ∀ a ∈ l, ∃ b ∈ out, R a b := by
  intro l out h
  induction h with
  | nil => simp
  | cons hr _ ih =>
    intro a ha
    rcases List.mem_cons.mp ha with rfl | ha2
    · exact ⟨_, List.mem_cons_self _ _, hr⟩
    · obtain ⟨b, hb, hab⟩ := ih a ha2
      exact ⟨b, List.mem_cons_of_mem _ hb, hab⟩

/-- C6: every configuration accepted by the loader has, for each project,
a non-empty `git_branch` whose characters are all ASCII letters, digits,
dash, underscore, slash, or dot; each accepted project's branch is the
configured one after defaulting the empty branch to "main"; and a
configured branch containing a character outside the class can never be
accepted. -/
theorem c6_git_branch_validation (sshCheck : String → Except String Unit)
    (cfg cfg' : Config) (h : loadConfigAfterParse sshCheck cfg = .ok cfg') :
    (∀ p ∈ cfg'.projects,
       p.gitBranch ≠ "" ∧ p.gitBranch.data.all isValidBranchChar = true) ∧
    List.Forall₂ (fun pin pout =>
        pout.gitBranch =
          if pin.gitBranch = "" then defaultGitBranch else pin.gitBranch)
      cfg.projects cfg'.projects ∧
    (∀ pin ∈ cfg.projects, ∀ c ∈ pin.gitBranch.data, isValidBranchChar c = true) := by
  unfold loadConfigAfterParse validateConfig at h
  have hproj : (if cfg.listenPort = 0
      then { cfg with listenPort := defaultPort } else cfg).projects =
      cfg.projects := by
    split <;> rfl
  simp only [hproj] at h
  rcases hv : validateProjects sshCheck [] cfg.projects with e | ps
  · rw [hv] at h
    cases h
  · rw [hv] at h
    simp only [Except.ok.injEq] at h
    have hps : cfg'.projects = ps := by rw [← h]
    have hF := validateProjects_ok_forall₂ sshCheck cfg.projects [] ps hv
    refine ⟨?_, ?_, ?_⟩
    · intro q hq
      rw [hps] at hq
      obtain ⟨a, _, hab⟩ := forall₂_exists_right hF q hq
      exact hab.2
    · rw [hps]
      exact hF.imp (fun a b hab => hab.1)
    · intro pin hpin c hc
      obtain ⟨pout, _, hab⟩ := forall₂_exists_left hF pin hpin
      have hne : pin.gitBranch ≠ "" := by
        intro hh
        rw [hh] at hc
        exact absurd hc (List.not_mem_nil c)
      have hbr : pout.gitBranch = pin.gitBranch := by
        rw [hab.1, if_neg hne]
      have hall := hab.2.2
      rw [hbr] at hall
      exact List.all_eq_true.mp hall c hc

/-- cfgW is a sample configuration with one project whose branch is left
empty. -/
def cfgW : Config :=
  { projects := [{ webhookPath := "/h", webhookSecret := "s",
                   executeCommand := "make" }] }

/-- cfgWOut is the snapshot the loader produces from `cfgW`: the listen
port defaulted to 8080 and the branch defaulted to "main". -/
def cfgWOut : Config :=
  { listenPort := 8080,
    projects := [{ webhookPath := "/h", webhookSecret := "s",
                   executeCommand := "make", gitBranch := "main" }] }

/-- C6 witness: the theorem instantiated at a configuration whose single
project omits `git_branch`. -/
theorem c6_git_branch_validation_witness :
    List.Forall₂ (fun pin pout =>
        pout.gitBranch =
          if pin.gitBranch = "" then defaultGitBranch else pin.gitBranch)
      cfgW.projects cfgWOut.projects :=
  (c6_git_branch_validation (fun _ => .ok ()) cfgW cfgWOut (by rfl)).2.1

/-- ensureDirectoryExists_ok: on success the path is a directory in the
resulting filesystem, every other path is untouched, and the trace records
a creation (with mode 0755) only when the path was missing. -/
theorem ensureDirectoryExists_ok (fs : FS) (path : String) (fs2 : FS)
    (tr : List (String × Nat))
    (h : ensureDirectoryExists fs path = .ok (fs2, tr)) :
    fs2.stat path = .dir ∧
    (∀ q, q ≠ path → fs2.stat q = fs.stat q) ∧
    (∀ e ∈ tr, e = (path, 0o755) ∧ fs.stat path = .missing) := by
  unfold ensureDirectoryExists at h
  cases hst : fs.stat path
  · rw [hst] at h
    simp only [Except.ok.injEq, Prod.mk.injEq] at h
    obtain ⟨h1, h2⟩ := h
    subst h1
    subst h2
    exact ⟨hst, fun q _ => rfl, by simp⟩
  · rw [hst] at h
    simp at h
  · rw [hst] at h
    by_cases hmk : fs.mkdirOk path = true
    · rw [if_pos hmk] at h
      simp only [Except.ok.injEq, Prod.mk.injEq] at h
      obtain ⟨h1, h2⟩ := h
      subst h1
      subst h2
      refine ⟨by simp, ?_, ?_⟩
      · intro q hq
        simp [hq]
      · intro e he
        simp only [List.mem_singleton] at he
        exact ⟨he, rfl⟩
    · rw [if_neg hmk] at h
      simp at h
  · rw [hst] at h
    simp at h

/-- ensureDirectoryExists_dir: a path that already is a directory passes
unchanged. -/
theorem ensureDirectoryExists_dir (fs : FS) (path : String)
    (h : fs.stat path = .dir) : ensureDirectoryExists fs path = .ok (fs, []) := by
  unfold ensureDirectoryExists
  rw [h]

/-- ensureDirectoryExists_file: a path that exists but is not a directory
fails. -/
theorem ensureDirectoryExists_file (fs : FS) (path : String)
    (h : fs.stat path = .file) :
    ensureDirectoryExists fs path =
      .error ("path exists but is not a directory: " ++ path) := by
  unfold ensureDirectoryExists
  rw [h]

/-- runPreflightChecks_skip_local: with an empty `local_path` the first
step is skipped and the check reduces to the execute-path step. -/
theorem runPreflightChecks_skip_local (fs : FS) (p : ProjectConfig)
    (hl : p.localPath = "") :
    runPreflightChecks fs p = preflightStep2 fs [] p := by
  unfold runPreflightChecks
  rw [if_neg (fun hn => hn hl)]

/-- runPreflightChecks_step1_ok: with a non-empty `local_path` whose check
succeeds, the check reduces to the execute-path step on the updated
filesystem. -/
theorem runPreflightChecks_step1_ok (fs : FS) (p : ProjectConfig) (fs1 : FS)
    (tr1 : List (String × Nat)) (hl : p.localPath ≠ "")
    (he1 : ensureDirectoryExists fs p.localPath = .ok (fs1, tr1)) :
    runPreflightChecks fs p = preflightStep2 fs1 tr1 p := by
  unfold runPreflightChecks
  rw [if_pos hl, he1]

/-- runPreflightChecks_step1_err: with a non-empty `local_path` whose
check fails, the whole preflight fails. -/
theorem runPreflightChecks_step1_err (fs : FS) (p : ProjectConfig) (e : String)
    (hl : p.localPath ≠ "")
    (he1 : ensureDirectoryExists fs p.localPath = .error e) :
    runPreflightChecks fs p =
      .error ("failed to ensure local_path exists: " ++ e) := by
  unfold runPreflightChecks
  rw [if_pos hl, he1]

/-- preflightStep2_skip: when the effective execute path is empty or
equals `local_path`, the second step passes unchanged. -/
theorem preflightStep2_skip (fs1 : FS) (tr1 : List (String × Nat))
    (p : ProjectConfig)
    (hc : ¬ (getEffectiveExecutePath p.localPath p.executePath ≠ "" ∧
             getEffectiveExecutePath p.localPath p.executePath ≠ p.localPath)) :
    preflightStep2 fs1 tr1 p = .ok (fs1, tr1) := by
  unfold preflightStep2
  rw [if_neg hc]

/-- preflightStep2_ok: the second preflight step leaves every other path
untouched, makes the effective execute path a directory when it actually
runs, records only mode-0755 creations of previously missing paths, and is
the identity when it does not run. -/
theorem preflightStep2_ok (fs1 : FS) (tr1 : List (String × Nat))
    (p : ProjectConfig) (fs2 : FS) (tr : List (String × Nat))
    (h : preflightStep2 fs1 tr1 p = .ok (fs2, tr)) :
    (∀ e ∈ tr, e ∈ tr1 ∨
       (e = (getEffectiveExecutePath p.localPath p.executePath, 0o755) ∧
        fs1.stat (getEffectiveExecutePath p.localPath p.executePath) = .missing)) ∧
    (∀ q, q ≠ getEffectiveExecutePath p.localPath p.executePath →
       fs2.stat q = fs1.stat q) ∧
    (getEffectiveExecutePath p.localPath p.executePath ≠ "" →
     getEffectiveExecutePath p.localPath p.executePath ≠ p.localPath →
       fs2.stat (getEffectiveExecutePath p.localPath p.executePath) = .dir) ∧
    ((getEffectiveExecutePath p.localPath p.executePath = "" ∨
      getEffectiveExecutePath p.localPath p.executePath = p.localPath) →
       fs2 = fs1 ∧ tr = tr1) := by
  unfold preflightStep2 at h
  by_cases hc : getEffectiveExecutePath p.localPath p.executePath ≠ "" ∧
      getEffectiveExecutePath p.localPath p.executePath ≠ p.localPath
  · rw [if_pos hc] at h
    rcases he2 : ensureDirectoryExists fs1
        (getEffectiveExecutePath p.localPath p.executePath) with e | ⟨fs2b, tr2⟩
    · rw [he2] at h
      simp at h
    · rw [he2] at h
      obtain ⟨hdir, hother, htr⟩ := ensureDirectoryExists_ok fs1 _ fs2b tr2 he2
      simp only [Except.ok.injEq, Prod.mk.injEq] at h
      obtain ⟨h1, h2⟩ := h
      subst h1
      refine ⟨?_, hother, fun _ _ => hdir, ?_⟩
      · intro e hee
        rw [← h2] at hee
        rcases List.mem_append.mp hee with he' | he'
        · exact Or.inl he'
        · exact Or.inr (htr e he')
      · rintro (hd | hd)
        · exact absurd hd hc.1
        · exact absurd hd hc.2
  · rw [if_neg hc] at h
    simp only [Except.ok.injEq, Prod.mk.injEq] at h
    obtain ⟨h1, h2⟩ := h
    subst h1
    exact ⟨fun e hee => Or.inl (h2 ▸ hee), fun q _ => rfl,
           fun hne hnl => absurd ⟨hne, hnl⟩ hc, fun _ => ⟨rfl, h2.symm⟩⟩

/-- runPreflightChecks_ok: on success every created directory was missing
beforehand and was created with mode 0755, and both the local path and the
effective execute path (when non-empty) are directories afterwards. -/
theorem runPreflightChecks_ok (fs : FS) (p : ProjectConfig) (fs2 : FS)
    (tr : List (String × Nat))
    (h : runPreflightChecks fs p = .ok (fs2, tr)) :
    (∀ e ∈ tr, e.2 = 0o755 ∧ fs.stat e.1 = .missing) ∧
    (p.localPath ≠ "" → fs2.stat p.localPath = .dir) ∧
    (getEffectiveExecutePath p.localPath p.executePath ≠ "" →
       fs2.stat (getEffectiveExecutePath p.localPath p.executePath) = .dir) := by
  by_cases hl : p.localPath = ""
  · rw [runPreflightChecks_skip_local fs p hl] at h
    obtain ⟨htr, _, hdir, _⟩ := preflightStep2_ok fs [] p fs2 tr h
    refine ⟨?_, fun hn => absurd hl hn, ?_⟩
    · intro e hee
      rcases htr e hee with he' | ⟨he1, he2⟩
      · exact absurd he' (List.not_mem_nil e)
      · exact ⟨by rw [he1], by rw [he1]; exact he2⟩
    · intro hne
      by_cases heq : getEffectiveExecutePath p.localPath p.executePath = p.localPath
      · exact absurd (heq.trans hl) hne
      · exact hdir hne heq
  · rcases he1 : ensureDirectoryExists fs p.localPath with e | ⟨fs1, tr1⟩
    · rw [runPreflightChecks_step1_err fs p e hl he1] at h
      simp at h
    · rw [runPreflightChecks_step1_ok fs p fs1 tr1 hl he1] at h
      obtain ⟨hdir1, hother1, htr1⟩ := ensureDirectoryExists_ok fs p.localPath fs1 tr1 he1
      obtain ⟨htr2, hother2, hdir2, hsame2⟩ := preflightStep2_ok fs1 tr1 p fs2 tr h
      refine ⟨?_, ?_, ?_⟩
      · intro e hee
        rcases htr2 e hee with he' | ⟨he'1, he'2⟩
        · obtain ⟨hep, hm⟩ := htr1 e he'
          exact ⟨by rw [hep], by rw [hep]; exact hm⟩
        · by_cases heq : getEffectiveExecutePath p.localPath p.executePath = p.localPath
          · rw [heq] at he'2
            rw [hdir1] at he'2
            cases he'2
          · refine ⟨by rw [he'1], ?_⟩
            rw [he'1]
            rw [← hother1 _ heq]
            exact he'2
      · intro _
        by_cases heq : getEffectiveExecutePath p.localPath p.executePath = p.localPath
        · obtain ⟨hfs, _⟩ := hsame2 (Or.inr heq)
          rw [hfs]
          exact hdir1
        · rw [hother2 p.localPath (fun hh => heq hh.symm)]
          exact hdir1
      · intro hne
        by_cases heq : getEffectiveExecutePath p.localPath p.executePath = p.localPath
        · obtain ⟨hfs, _⟩ := hsame2 (Or.inr heq)
          rw [hfs, heq]
          exact hdir1
        · exact hdir2 hne heq

/-- C7: the preflight check skips empty paths, passes existing directories
unchanged, fails on a path that exists but is not a directory, and creates
a missing path recursively with mode 0755; on success both `local_path`
and the effective `execute_path` (when non-empty) exist as directories. -/
theorem c7_preflight_directory_checks (fs : FS) (p : ProjectConfig) :
    (∀ fs2 tr, runPreflightChecks fs p = .ok (fs2, tr) →
       (∀ e ∈ tr, e.2 = 0o755 ∧ fs.stat e.1 = .missing) ∧
       (p.localPath ≠ "" → fs2.stat p.localPath = .dir) ∧
       (getEffectiveExecutePath p.localPath p.executePath ≠ "" →
          fs2.stat (getEffectiveExecutePath p.localPath p.executePath) = .dir)) ∧
    (p.localPath = "" ∧ p.executePath = "" →
       runPreflightChecks fs p = .ok (fs, [])) ∧
    ((p.localPath ≠ "" → fs.stat p.localPath = .dir) →
     (getEffectiveExecutePath p.localPath p.executePath ≠ "" →
        fs.stat (getEffectiveExecutePath p.localPath p.executePath) = .dir) →
     runPreflightChecks fs p = .ok (fs, [])) ∧
    (p.localPath ≠ "" → fs.stat p.localPath = .file →
       runPreflightChecks fs p =
         .error ("failed to ensure local_path exists: " ++
                 ("path exists but is not a directory: " ++ p.localPath))) ∧
    (p.localPath = "" → p.executePath ≠ "" → fs.stat p.executePath = .file →
       runPreflightChecks fs p =
         .error ("failed to ensure execute_path exists: " ++
                 ("path exists but is not a directory: " ++ p.executePath))) := by
  refine ⟨fun fs2 tr h => runPreflightChecks_ok fs p fs2 tr h, ?_, ?_, ?_, ?_⟩
  · rintro ⟨hl, hx⟩
    rw [runPreflightChecks_skip_local fs p hl]
    have heff : getEffectiveExecutePath p.localPath p.executePath = "" := by
      simp [getEffectiveExecutePath, hl, hx]
    exact preflightStep2_skip fs [] p (fun hcon => hcon.1 heff)
  · intro h1 h2
    by_cases hl : p.localPath = ""
    · rw [runPreflightChecks_skip_local fs p hl]
      by_cases heff : getEffectiveExecutePath p.localPath p.executePath = ""
      · exact preflightStep2_skip fs [] p (fun hcon => hcon.1 heff)
      · unfold preflightStep2
        rw [if_pos ⟨heff, fun hh => heff (hh.trans hl)⟩,
            ensureDirectoryExists_dir fs _ (h2 heff)]
        rfl
    · have he1 := ensureDirectoryExists_dir fs p.localPath (h1 hl)
      rw [runPreflightChecks_step1_ok fs p fs [] hl he1]
      by_cases hc : getEffectiveExecutePath p.localPath p.executePath ≠ "" ∧
          getEffectiveExecutePath p.localPath p.executePath ≠ p.localPath
      · unfold preflightStep2
        rw [if_pos hc, ensureDirectoryExists_dir fs _ (h2 hc.1)]
        rfl
      · exact preflightStep2_skip fs [] p hc
  · intro hl hst
    exact runPreflightChecks_step1_err fs p _ hl (ensureDirectoryExists_file fs _ hst)
  · intro hl hx hst
    rw [runPreflightChecks_skip_local fs p hl]
    have heff : getEffectiveExecutePath p.localPath p.executePath = p.executePath := by
      simp [getEffectiveExecutePath, hx]
    unfold preflightStep2
    rw [if_pos ⟨by rw [heff]; exact hx, by rw [heff, hl]; exact hx⟩, heff,
        ensureDirectoryExists_file fs _ hst]

/-- fsFileAll is a sample filesystem in which every path exists but is a
regular file. -/
def fsFileAll : FS := { stat := fun _ => .file, mkdirOk := fun _ => true }

/-- projNoPaths is a sample project with no local or execute path. -/
def projNoPaths : ProjectConfig :=
  { webhookPath := "/hooks/x", webhookSecret := "s", executeCommand := "true" }

/-- C7 witness: the theorem instantiated at empty paths (skip), at an
all-directories filesystem (pass unchanged), and at a filesystem in which
the local path is a regular file (error). -/
theorem c7_preflight_directory_checks_witness :
    runPreflightChecks fsDirAll projNoPaths = .ok (fsDirAll, []) ∧
    runPreflightChecks fsDirAll projA = .ok (fsDirAll, []) ∧
    runPreflightChecks fsFileAll projA =
      .error ("failed to ensure local_path exists: " ++
              ("path exists but is not a directory: " ++ projA.localPath)) :=
  ⟨(c7_preflight_directory_checks fsDirAll projNoPaths).2.1 ⟨rfl, rfl⟩,
   (c7_preflight_directory_checks fsDirAll projA).2.2.1 (fun _ => rfl) (fun _ => rfl),
   (c7_preflight_directory_checks fsFileAll projA).2.2.2.1 (by decide) rfl⟩

end SDeploy
